import Mathlib

/-!
Verification of the underwater-detection demo application.

Shallow embedding of `src/app_simple_professional.py`,
`src/train_and_test_yolov8.py` and `src/train_test_yolov8s.py`.

Conventions of the embedding:
  * Python floats are modelled as rationals (`ℚ`); `int(x)` truncation
    toward zero is `pyInt`.
  * The external OpenCV drawing primitives (`cv2.rectangle`,
    `cv2.putText`, `cv2.getTextSize`) and the pixel type of images are
    abstract: a `CvOps Img` record supplies them, universally quantified
    in the theorems.  Mutation of numpy buffers is made explicit through
    a heap (`List Img`): a buffer is a heap index, `np.array(image)` and
    `.copy()` allocate fresh slots at the end of the heap, and an OpenCV
    call on a buffer is `List.set` at its index.
  * The external YOLO model is an abstract inference function
    `String → Img → ℚ → ℚ → YoloResults`; `results[0].boxes` of the
    one-element result list returned by ultralytics is the `boxes` field.
  * Wall-clock values (`datetime.now()` timestamp, `time.time()`
    latency) are parameters.
-/

/-- `UNDERWATER_CLASSES` from `app_simple_professional.py`. -/
def UNDERWATER_CLASSES : List String :=
  ["fish", "jellyfish", "penguin", "puffin", "shark", "starfish", "stingray"]

/-- `CLASS_COLORS` from `app_simple_professional.py`. -/
def CLASS_COLORS : List (String × String) :=
  [("fish", "#FF6B6B"),
   ("jellyfish", "#4ECDC4"),
   ("penguin", "#45B7D1"),
   ("puffin", "#96CEB4"),
   ("shark", "#FECA57"),
   ("starfish", "#FF9FF3"),
   ("stingray", "#54A0FF")]

/-- Python dict `.get(k, d)` on an insertion-ordered association list. -/
def dictGetD (m : List (String × String)) (k d : String) : String :=
  (((m.find? (fun p => p.1 == k)).map (fun p => p.2)).getD d)

/-- Python `int()` applied to a float: truncation toward zero. -/
def pyInt (q : ℚ) : Int :=
  if 0 ≤ q then ⌊q⌋ else ⌈q⌉

/-- Value of a hexadecimal digit character (`int(_, 16)`). -/
def hexDigit (c : Char) : Nat :=
  if c.isDigit then c.toNat - 48
  else if ('a' ≤ c ∧ c ≤ 'f') then c.toNat - 87
  else if ('A' ≤ c ∧ c ≤ 'F') then c.toNat - 55
  else 0

/-- `tuple(int(color[i:i+2], 16) for i in (1, 3, 5))`: parse a
`#RRGGBB` color string into an RGB triple. -/
def hexToRgb (s : String) : Nat × Nat × Nat :=
  let cs := s.toList
  let v := fun (i : Nat) => hexDigit (cs.getD i '0') * 16 + hexDigit (cs.getD (i + 1) '0')
  (v 1, v 3, v 5)

/-- Python `f"{q:.2f}"` formatting of a (rational-modelled) float:
round to hundredths and print with two decimal places. -/
def fmt2 (q : ℚ) : String :=
  let n : Int := round (q * 100)
  let sgn := if n < 0 then "-" else ""
  let m := n.natAbs
  sgn ++ toString (m / 100) ++ "." ++ (if m % 100 < 10 then "0" else "") ++ toString (m % 100)

/-- One detection record appended to `detection_data` by
`create_visualization`: `{class, confidence, bbox, color}`. -/
structure DetectionRecord where
  className : String
  confidence : ℚ
  bbox : Int × Int × Int × Int
  color : String
deriving DecidableEq, Inhabited, Repr

/-- One entry of the global `detection_history` list. -/
structure HistoryEntry where
  timestamp : String
  model : String
  detections : Nat
  inferenceTime : ℚ
  objects : List DetectionRecord
deriving DecidableEq, Inhabited, Repr

/-- Lines 205-216 of `detect_objects`: append the new entry to
`detection_history`, then `if len(detection_history) > 50:
detection_history.pop(0)`. -/
def histStep (h : List HistoryEntry) (e : HistoryEntry) : List HistoryEntry :=
  let h2 := h ++ [e]
  if h2.length > 50 then h2.drop 1 else h2

/-- The external OpenCV / numpy primitives used by
`create_visualization`, abstract over the image (buffer-content) type:
`shape` is `img.shape[:2]` as `(height, width)`, `rectangle` is
`cv2.rectangle`, `putText` is `cv2.putText`, `getTextSize` is
`cv2.getTextSize` returning `((width, height), baseline)`. -/
structure CvOps (Img : Type) where
  shape : Img → Nat × Nat
  rectangle : Img → Int × Int → Int × Int → Nat × Nat × Nat → Int → Img
  putText : Img → String → Int × Int → ℚ → Nat × Nat × Nat → Int → Img
  getTextSize : String → ℚ → Int → (Int × Int) × Int

/-- `results[0]` of the one-element list returned by the external YOLO
model: `boxes` may be `None`, otherwise each box carries optional
`conf` and `cls` scalars and the `xyxy` coordinates. -/
structure RawBox where
  conf : Option ℚ
  cls : Option Nat
  xyxy : ℚ × ℚ × ℚ × ℚ
deriving DecidableEq, Inhabited, Repr

/-- The detection results handed to `create_visualization`. -/
structure YoloResults where
  boxes : Option (List RawBox)
deriving DecidableEq, Inhabited, Repr

/-- Body of the `for i, box in enumerate(detections.boxes)` loop of
`create_visualization` (lines 70-114): for each box with non-`None`
`conf` and `cls`, draw the bounding box, the label background and the
label text onto the buffer at heap index `aref`, and append one record
to `detection_data`.  `imgH`/`imgW` are `img_height`/`img_width`. -/
def drawLoop {Img : Type} [Inhabited Img] (ops : CvOps Img) (imgH imgW : Nat)
    (aref : Nat) :
    List Img → List DetectionRecord → List RawBox → List Img × List DetectionRecord
  | heap, data, [] => (heap, data)
  | heap, data, box :: rest =>
    match box.conf, box.cls with
    | some confidence, some classId =>
      let className :=
        if classId < UNDERWATER_CLASSES.length then UNDERWATER_CLASSES.getD classId ""
        else "class_" ++ toString classId
      let x1 := pyInt box.xyxy.1
      let y1 := pyInt box.xyxy.2.1
      let x2 := pyInt box.xyxy.2.2.1
      let y2 := pyInt box.xyxy.2.2.2
      let color := dictGetD CLASS_COLORS className "#FFFFFF"
      let colorRgb := hexToRgb color
      let thickness : Int := max 2 ((min imgW imgH : Int) / 300)
      let img0 := heap.getD aref default
      let img1 := ops.rectangle img0 (x1, y1) (x2, y2) colorRgb thickness
      let label := className ++ " " ++ fmt2 confidence
      let fontScale : ℚ := max (3 / 5) ((min imgW imgH : ℚ) / 1000)
      let fontThickness : Int := max 1 (thickness / 2)
      let wh := ops.getTextSize label fontScale fontThickness
      let labelW := wh.1.1
      let labelH := wh.1.2
      let labelBgTop : Int := max 0 (y1 - labelH - 10)
      let img2 := ops.rectangle img1 (x1, labelBgTop) (x1 + labelW + 10, y1) colorRgb (-1)
      let img3 := ops.putText img2 label (x1 + 5, y1 - 5) fontScale (255, 255, 255) fontThickness
      let heap2 := heap.set aref img3
      let record : DetectionRecord := ⟨className, confidence, (x1, y1, x2, y2), color⟩
      drawLoop ops imgH imgW aref heap2 (data ++ [record]) rest
    | _, _ => drawLoop ops imgH imgW aref heap data rest

/-- `create_visualization` (lines 58-116).  The caller's image lives at
heap index `imgRef`; `np.array(image)` allocates a fresh buffer
`img_array`, `.copy()` allocates the fresh `annotated_img` buffer, and
all drawing mutates only the latter.  Returns the final heap, the heap
index of the annotated image (returned to the caller), and
`detection_data`. -/
def createVisualization {Img : Type} [Inhabited Img] (ops : CvOps Img)
    (heap : List Img) (imgRef : Nat) (results : YoloResults) :
    List Img × Nat × List DetectionRecord :=
  let image := heap.getD imgRef default
  let imgArray := image
  let hw := ops.shape imgArray
  let heap1 := heap ++ [imgArray]
  let annotated := imgArray
  let aref := heap1.length
  let heap2 := heap1 ++ [annotated]
  match results.boxes with
  | none => (heap2, aref, [])
  | some boxes =>
    let out := drawLoop ops hw.1 hw.2 aref heap2 [] boxes
    (out.1, aref, out.2)

/-- `class_counts[class_name] = class_counts.get(class_name, 0) + 1` on
an insertion-ordered dict modelled as an association list. -/
def bumpCount (m : List (String × Nat)) (k : String) : List (String × Nat) :=
  match m with
  | [] => [(k, 1)]
  | (a, b) :: rest => if a == k then (a, b + 1) :: rest else (a, b) :: bumpCount rest k

/-- The `class_counts` dict built by `create_detection_summary` (and
identically by `create_detection_chart`). -/
def classCounts (data : List DetectionRecord) : List (String × Nat) :=
  data.foldl (fun m d => bumpCount m d.className) []

/-- Python `str.capitalize()`: first character upper-cased, the rest
lower-cased. -/
def pyCapitalize (s : String) : String :=
  match s.toList with
  | [] => ""
  | c :: cs => String.mk (c.toUpper :: cs.map Char.toLower)

/-- The per-class emoji dict of `create_detection_summary`. -/
def classEmoji (c : String) : String :=
  dictGetD
    [("fish", "🐠"), ("jellyfish", "🪼"), ("penguin", "🐧"),
     ("puffin", "🦅"), ("shark", "🦈"), ("starfish", "⭐"), ("stingray", "🐙")]
    c "🔹"

/-- The message returned by `create_detection_summary` on an empty
detection list. -/
def noObjectsMsg : String :=
  "🔍 **No objects detected**\n\nTry adjusting the confidence threshold or uploading a different image."

/-- Divisor of the average-confidence computation in
`create_detection_summary`: `total_detections = len(detection_data)`. -/
def summaryDivisor (data : List DetectionRecord) : ℚ :=
  (data.length : ℚ)

/-- `create_detection_summary` (lines 118-145). -/
def createDetectionSummary (data : List DetectionRecord) (modelName : String)
    (inferenceTime : ℚ) : String :=
  if data = [] then noObjectsMsg
  else
    let total := data.length
    let avgConfidence := (data.map (fun d => d.confidence)).sum / summaryDivisor data
    let counts := classCounts data
    let header :=
      "## 🎯 Detection Summary\n" ++
      "**Model Used:** " ++ modelName ++ "\n" ++
      "**Inference Time:** " ++ fmt2 inferenceTime ++ "s\n" ++
      "**Total Objects:** " ++ toString total ++ "\n" ++
      "**Average Confidence:** " ++ fmt2 avgConfidence ++ "\n\n" ++
      "### 📊 Detected Objects:\n"
    header ++ String.join (counts.map (fun p =>
      classEmoji p.1 ++ " **" ++ pyCapitalize p.1 ++ ":** " ++ toString p.2 ++ "\n"))

/-- `create_detection_chart` (lines 147-176): `None` for an empty
detection list, otherwise a bar chart of the per-class counts with the
per-class colors. -/
def createDetectionChart (data : List DetectionRecord) :
    Option (List (String × Nat × String)) :=
  if data = [] then none
  else some ((classCounts data).map (fun p =>
    (p.1, p.2, dictGetD CLASS_COLORS p.1 "#888888")))

/-- One line of `get_detection_history` for the record shown at
position `i` (printed as `i+1`). -/
def formatHistLine (i : Nat) (r : HistoryEntry) : String :=
  "**" ++ toString (i + 1) ++ ".** " ++ r.timestamp ++ " | " ++
  "Model: " ++ r.model ++ " | " ++
  "Objects: " ++ toString r.detections ++ " | " ++
  "Time: " ++ fmt2 r.inferenceTime ++ "s\n"

/-- The list of lines `get_detection_history` builds from
`enumerate(reversed(detection_history[-10:]))`. -/
def historyLines (h : List HistoryEntry) : List String :=
  ((h.drop (h.length - 10)).reverse).enum.map (fun p => formatHistLine p.1 p.2)

/-- `get_detection_history` (lines 220-232). -/
def getDetectionHistory (h : List HistoryEntry) : String :=
  if h = [] then "No detection history available."
  else "## 📈 Detection History\n\n" ++ String.join (historyLines h)

/-- The value `detect_objects` hands back to the UI: the two early
returns are `(None, msg, None, "")`, the success return is
`(annotated_image, summary, status)` with the annotated image given by
its heap index. -/
inductive DetectReturn where
  | errorReturn (msg : String)
  | completed (annotated : Nat) (summary : String) (status : String)
deriving DecidableEq, Repr

/-- Full outcome of one `detect_objects` call: the final buffer heap,
the returned value, the new `detection_history`, and the trace of
inference invocations `(model name, conf, iou)` performed. -/
structure DetectOutcome (Img : Type) where
  heap : List Img
  ret : DetectReturn
  history : List HistoryEntry
  inferences : List (String × ℚ × ℚ)
deriving Repr

/-- `detect_objects` (lines 178-218).  `registry` holds the keys of the
global `models` dict, `infer` is the external YOLO model call, `now`
and `elapsed` are the wall-clock timestamp and measured latency, and
the caller's uploaded image is `some imgRef` into the heap (or `none`).
The computed chart is built and then dropped, as in the source, whose
final return carries only image, summary and status. -/
def detectObjects {Img : Type} [Inhabited Img] (ops : CvOps Img)
    (registry : List String) (infer : String → Img → ℚ → ℚ → YoloResults)
    (now : String) (elapsed : ℚ) (heap : List Img)
    (history : List HistoryEntry) (image : Option Nat) (modelChoice : String)
    (confidenceThreshold iouThreshold : ℚ) : DetectOutcome Img :=
  match image with
  | none => ⟨heap, .errorReturn "Please upload an image", history, []⟩
  | some imgRef =>
    if registry.contains modelChoice then
      let results := infer modelChoice (heap.getD imgRef default)
        confidenceThreshold iouThreshold
      let viz := createVisualization ops heap imgRef results
      let detectionData := viz.2.2
      let summary := createDetectionSummary detectionData modelChoice elapsed
      let _chart := createDetectionChart detectionData
      let entry : HistoryEntry := ⟨now, modelChoice, detectionData.length, elapsed, detectionData⟩
      ⟨viz.1,
       .completed viz.2.1 summary ("Detection completed in " ++ fmt2 elapsed ++ "s"),
       histStep history entry,
       [(modelChoice, confidenceThreshold, iouThreshold)]⟩
    else ⟨heap, .errorReturn ("Model " ++ modelChoice ++ " not available"), history, []⟩

/-- `MODEL_PATHS` from `app_simple_professional.py`. -/
def MODEL_PATHS : List (String × String) :=
  [("YOLOv8n", "../yolov8n/runs/detect_train/weights/best.pt"),
   ("YOLOv8s", "../yolov8s/runs/detect_train/weights/best.pt")]

/-- Outcome of attempting `YOLO(model_path)` for a custom weight file:
the path exists and loads, the path exists but `YOLO` raises, or
`os.path.exists` is false. -/
inductive LoadOutcome where
  | loaded
  | failed
  | missing
deriving DecidableEq, Repr

/-- The model-loading loop of lines 23-32: for each `(name, path)` of
`MODEL_PATHS` in order, when the file exists and loads, `models[name]`
is assigned and `name` is appended to `available_models`; a load
exception or missing file is logged and the slot skipped.  Returns the
`models` keys (insertion order) and `available_models`. -/
def loadCustomModels (env : String → LoadOutcome) : List String × List String :=
  MODEL_PATHS.foldl
    (fun acc p =>
      match env p.2 with
      | .loaded => (acc.1 ++ [p.1], acc.2 ++ [p.1])
      | _ => acc)
    ([], [])

/-- State of the model registry after startup. -/
structure Startup where
  modelKeys : List String
  available : List String
  usedFallback : Bool
deriving DecidableEq, Repr

/-- Lines 20-39: load the custom models, and if `available_models` is
empty fall back to `YOLO("yolov8n.pt")` / `YOLO("yolov8s.pt")` in the
two named slots (the fallback loads are not guarded by `try`). -/
def startupModels (env : String → LoadOutcome) : Startup :=
  let lm := loadCustomModels env
  if lm.2.isEmpty then ⟨["YOLOv8n", "YOLOv8s"], ["YOLOv8n", "YOLOv8s"], true⟩
  else ⟨lm.1, lm.2, false⟩

/-- The dict written to `test_data.yaml` by both training scripts. -/
structure TestYamlConfig where
  path : String
  train : String
  val : String
  nc : Nat
  names : List String
deriving DecidableEq, Repr

/-- `test_yaml` of `train_and_test_yolov8.py` (lines 81-87), as a
function of the directory of the script
(`os.path.dirname(__file__)`). -/
def trainAndTest_testYaml (scriptDir : String) : TestYamlConfig :=
  ⟨scriptDir ++ "/test", "", "images", 7,
   ["fish", "jellyfish", "penguin", "puffin", "shark", "starfish", "stingray"]⟩

/-- `test_yaml_path` of `train_and_test_yolov8.py` (line 88). -/
def trainAndTest_testYamlPath (scriptDir : String) : String :=
  scriptDir ++ "/test_data.yaml"

/-- `test_yaml` of `train_test_yolov8s.py` (lines 64-70). -/
def trainTestS_testYaml (scriptDir : String) : TestYamlConfig :=
  ⟨scriptDir ++ "/test", "", "images", 7,
   ["fish", "jellyfish", "penguin", "puffin", "shark", "starfish", "stingray"]⟩

/-- `test_yaml_path` of `train_test_yolov8s.py` (line 71). -/
def trainTestS_testYamlPath (scriptDir : String) : String :=
  scriptDir ++ "/test_data.yaml"

/-! ## Helper lemmas -/

lemma histStep_append_lt (h : List HistoryEntry) (e : HistoryEntry)
    (hl : h.length + 1 ≤ 50) : histStep h e = h ++ [e] := by
  simp only [histStep, List.length_append, List.length_singleton]
  have hn : ¬ (h.length + 1 > 50) := by omega
  simp [hn]

lemma foldl_histStep_eq (es : List HistoryEntry) :
    es.foldl histStep [] = es.drop (es.length - 50) := by
  induction es using List.reverseRecOn with
  | nil => rfl
  | append_singleton es e ih =>
    rw [List.foldl_append]
    simp only [List.foldl_cons, List.foldl_nil]
    rw [ih]
    by_cases hlt : es.length < 50
    · have h1 : es.length - 50 = 0 := by omega
      have h2 : es.length + 1 - 50 = 0 := by omega
      rw [h1, List.drop_zero]
      rw [List.length_append, List.length_singleton, h2, List.drop_zero]
      simp only [histStep, List.length_append, List.length_singleton]
      have : ¬ es.length + 1 > 50 := by omega
      simp [this]
    · push_neg at hlt
      set t := es.drop (es.length - 50) with ht
      have htl : t.length = 50 := by
        rw [ht, List.length_drop]; omega
      have hcond : (t ++ [e]).length > 50 := by
        rw [List.length_append, List.length_singleton, htl]
        omega
      simp only [histStep]
      rw [if_pos hcond]
      have h1le : 1 ≤ t.length := by omega
      rw [List.drop_append_of_le_length h1le, ht, List.drop_drop]
      have hidx : es.length - 50 + 1 = (es ++ [e]).length - 50 := by
        rw [List.length_append, List.length_singleton]; omega
      rw [hidx]
      have hle : (es ++ [e]).length - 50 ≤ es.length := by
        rw [List.length_append, List.length_singleton]; omega
      rw [List.drop_append_of_le_length hle]

lemma histStep_getLast (h : List HistoryEntry) (e : HistoryEntry) :
    (histStep h e).getLast? = some e := by
  simp only [histStep]
  by_cases hc : (h ++ [e]).length > 50
  · rw [if_pos hc]
    have h1 : 1 ≤ h.length := by
      rw [List.length_append, List.length_singleton] at hc; omega
    rw [List.drop_append_of_le_length h1, List.getLast?_concat]
  · rw [if_neg hc, List.getLast?_concat]

/-! ## Claim theorems -/

/-- C1.  Across every sequence of successful `detect_objects` runs
(each contributing one history entry through the append-then-trim step
`histStep`, starting from the empty `detection_history`), the buffer is
exactly the 50 most recent entries in order — FIFO eviction of the
oldest — its length never exceeds 50, and each step appends its entry
at the end. -/
theorem detection_history_fifo_capped (es : List HistoryEntry) :
    es.foldl histStep [] = es.drop (es.length - 50) ∧
    (es.foldl histStep []).length ≤ 50 ∧
    (∀ h e, (histStep h e).getLast? = some e) := by
  refine ⟨foldl_histStep_eq es, ?_, histStep_getLast⟩
  rw [foldl_histStep_eq es, List.length_drop]
  omega

/-- C2.  On every successful inference (an uploaded image and an
available model), `detect_objects` pushes exactly one history entry
(through the append-then-trim step) whose fields are the timestamp, the
chosen model name, the detection count — the length of the
detection-record list — the inference latency, and the detection
records of that run; and it performs exactly that one inference. -/
theorem detect_objects_history_entry {Img : Type} [Inhabited Img]
    (ops : CvOps Img) (registry : List String)
    (infer : String → Img → ℚ → ℚ → YoloResults) (now : String) (elapsed : ℚ)
    (heap : List Img) (history : List HistoryEntry) (imgRef : Nat)
    (choice : String) (conf iou : ℚ)
    (hc : choice ∈ registry) :
    (detectObjects ops registry infer now elapsed heap history (some imgRef)
        choice conf iou).history =
      histStep history
        ⟨now, choice,
         (createVisualization ops heap imgRef
             (infer choice (heap.getD imgRef default) conf iou)).2.2.length,
         elapsed,
         (createVisualization ops heap imgRef
             (infer choice (heap.getD imgRef default) conf iou)).2.2⟩ ∧
    (detectObjects ops registry infer now elapsed heap history (some imgRef)
        choice conf iou).inferences = [(choice, conf, iou)] := by
  simp [detectObjects, hc]

/-- Trivial instantiation of the abstract OpenCV primitives, used to
exercise the theorems on concrete inputs. -/
def unitOps : CvOps Unit :=
  ⟨fun _ => (0, 0), fun i _ _ _ _ => i, fun i _ _ _ _ _ => i, fun _ _ _ => ((0, 0), 0)⟩

/-- Inference function returning no boxes, for concrete instantiation. -/
def emptyInfer : String → Unit → ℚ → ℚ → YoloResults :=
  fun _ _ _ _ => ⟨none⟩

/-- Witness for C2 at a concrete input. -/
theorem detect_objects_history_entry_witness :
    ("YOLOv8n" ∈ ["YOLOv8n"]) ∧
    ((detectObjects unitOps ["YOLOv8n"] emptyInfer "2024-01-01 00:00:00" 1 [()]
        [] (some 0) "YOLOv8n" 1 1).history =
      histStep []
        ⟨"2024-01-01 00:00:00", "YOLOv8n",
         (createVisualization unitOps [()] 0
             (emptyInfer "YOLOv8n" ([()].getD 0 default) 1 1)).2.2.length,
         1,
         (createVisualization unitOps [()] 0
             (emptyInfer "YOLOv8n" ([()].getD 0 default) 1 1)).2.2⟩ ∧
      (detectObjects unitOps ["YOLOv8n"] emptyInfer "2024-01-01 00:00:00" 1 [()]
        [] (some 0) "YOLOv8n" 1 1).inferences = [("YOLOv8n", 1, 1)]) :=
  ⟨by decide,
   detect_objects_history_entry unitOps ["YOLOv8n"] emptyInfer
     "2024-01-01 00:00:00" 1 [()] [] 0 "YOLOv8n" 1 1 (by decide)⟩

/-- C8.  When `detect_objects` is called with a `None` image or an
unavailable model choice, it returns early: the returned value is the
error-message early return with no annotated image, no inference is
run, the buffer heap is untouched, and the detection history is exactly
unchanged. -/
theorem detect_objects_early_return {Img : Type} [Inhabited Img]
    (ops : CvOps Img) (registry : List String)
    (infer : String → Img → ℚ → ℚ → YoloResults) (now : String) (elapsed : ℚ)
    (heap : List Img) (history : List HistoryEntry) (image : Option Nat)
    (choice : String) (conf iou : ℚ)
    (h : image = none ∨ choice ∉ registry) :
    (detectObjects ops registry infer now elapsed heap history image
        choice conf iou).history = history ∧
    (detectObjects ops registry infer now elapsed heap history image
        choice conf iou).inferences = [] ∧
    (detectObjects ops registry infer now elapsed heap history image
        choice conf iou).heap = heap ∧
    ∃ m, (detectObjects ops registry infer now elapsed heap history image
        choice conf iou).ret = .errorReturn m ∧
      (image = none → m = "Please upload an image") ∧
      (∀ r, image = some r → m = "Model " ++ choice ++ " not available") := by
  cases image with
  | none => simp [detectObjects]
  | some r =>
    rcases h with h | h
    · exact absurd h (by simp)
    · simp [detectObjects, h]

/-- Witness for C8 at a concrete input (a `None` image). -/
theorem detect_objects_early_return_witness :
    (((none : Option Nat) = none ∨ "YOLOv8n" ∉ ([] : List String)) ∧
     ((detectObjects unitOps [] emptyInfer "t" 1 [()] [] none "YOLOv8n" 1
         1).history = [] ∧
      (detectObjects unitOps [] emptyInfer "t" 1 [()] [] none "YOLOv8n" 1
         1).inferences = [] ∧
      (detectObjects unitOps [] emptyInfer "t" 1 [()] [] none "YOLOv8n" 1
         1).heap = [()] ∧
      ∃ m, (detectObjects unitOps [] emptyInfer "t" 1 [()] [] none "YOLOv8n" 1
         1).ret = .errorReturn m ∧
        ((none : Option Nat) = none → m = "Please upload an image") ∧
        (∀ r, (none : Option Nat) = some r →
          m = "Model " ++ "YOLOv8n" ++ " not available"))) :=
  ⟨Or.inl rfl,
   detect_objects_early_return unitOps [] emptyInfer "t" 1 [()] [] none
     "YOLOv8n" 1 1 (Or.inl rfl)⟩

/-- C4.  At startup, every custom weight file that exists and loads
ends up in its named slot; the fallback to the generic pretrained
weights `yolov8n.pt` / `yolov8s.pt` in the two slots happens exactly
when no custom model was loaded; and in all cases the registry is
non-empty afterwards. -/
theorem startup_registry_fallback (env : String → LoadOutcome) :
    (∀ n p, (n, p) ∈ MODEL_PATHS → env p = .loaded →
      n ∈ (startupModels env).modelKeys) ∧
    ((startupModels env).usedFallback = true ↔ (loadCustomModels env).2 = []) ∧
    ((startupModels env).usedFallback = true →
      (startupModels env).modelKeys = ["YOLOv8n", "YOLOv8s"] ∧
      (startupModels env).available = ["YOLOv8n", "YOLOv8s"]) ∧
    (startupModels env).modelKeys ≠ [] := by
  constructor
  · rintro n p hmem hl
    simp only [List.mem_cons, MODEL_PATHS, List.mem_singleton, Prod.mk.injEq,
      List.not_mem_nil, or_false] at hmem
    rcases hmem with ⟨rfl, rfl⟩ | ⟨rfl, rfl⟩ <;>
      rcases h1 : env "../yolov8n/runs/detect_train/weights/best.pt" <;>
        rcases h2 : env "../yolov8s/runs/detect_train/weights/best.pt" <;>
          simp_all [startupModels, loadCustomModels, MODEL_PATHS]
  · rcases h1 : env "../yolov8n/runs/detect_train/weights/best.pt" <;>
      rcases h2 : env "../yolov8s/runs/detect_train/weights/best.pt" <;>
        refine ⟨?_, ?_, ?_⟩ <;>
          simp_all [startupModels, loadCustomModels, MODEL_PATHS]

/-- Concrete load environment: the first custom weight file loads, the
second is missing. -/
def envFirstOnly : String → LoadOutcome :=
  fun p => if p = "../yolov8n/runs/detect_train/weights/best.pt" then .loaded else .missing

/-- Witness for C4 at a concrete load environment. -/
theorem startup_registry_fallback_witness :
    (("YOLOv8n", "../yolov8n/runs/detect_train/weights/best.pt") ∈ MODEL_PATHS ∧
     envFirstOnly "../yolov8n/runs/detect_train/weights/best.pt" = .loaded ∧
     "YOLOv8n" ∈ (startupModels envFirstOnly).modelKeys) ∧
    (startupModels envFirstOnly).modelKeys ≠ [] :=
  ⟨⟨by decide, by decide,
    (startup_registry_fallback envFirstOnly).1 "YOLOv8n"
      "../yolov8n/runs/detect_train/weights/best.pt" (by decide) (by decide)⟩,
   (startup_registry_fallback envFirstOnly).2.2.2⟩

/-- C5.  A failure to load one custom model (missing file or load
exception) only skips that slot: any custom model whose weight file
loads successfully is still in the registry and among the available
models, whatever happened to the other slot. -/
theorem model_load_failure_skipped (env : String → LoadOutcome)
    (n p n2 p2 : String) (hn : (n, p) ∈ MODEL_PATHS)
    (hn2 : (n2, p2) ∈ MODEL_PATHS) (hload : env p = .loaded)
    (hfail : env p2 ≠ .loaded) :
    n ∈ (startupModels env).modelKeys ∧ n ∈ (startupModels env).available := by
  simp only [List.mem_cons, MODEL_PATHS, List.mem_singleton,
    Prod.mk.injEq, List.not_mem_nil, or_false] at hn hn2
  rcases h1 : env "../yolov8n/runs/detect_train/weights/best.pt" <;>
    rcases h2 : env "../yolov8s/runs/detect_train/weights/best.pt" <;>
      rcases hn with ⟨rfl, rfl⟩ | ⟨rfl, rfl⟩ <;>
        rcases hn2 with ⟨rfl, rfl⟩ | ⟨rfl, rfl⟩ <;>
          simp_all [startupModels, loadCustomModels, MODEL_PATHS]

/-- Witness for C5 at a concrete load environment. -/
theorem model_load_failure_skipped_witness :
    (("YOLOv8n", "../yolov8n/runs/detect_train/weights/best.pt") ∈ MODEL_PATHS ∧
     ("YOLOv8s", "../yolov8s/runs/detect_train/weights/best.pt") ∈ MODEL_PATHS ∧
     envFirstOnly "../yolov8n/runs/detect_train/weights/best.pt" = .loaded ∧
     envFirstOnly "../yolov8s/runs/detect_train/weights/best.pt" ≠ .loaded) ∧
    ("YOLOv8n" ∈ (startupModels envFirstOnly).modelKeys ∧
     "YOLOv8n" ∈ (startupModels envFirstOnly).available) :=
  ⟨⟨by decide, by decide, by decide, by decide⟩,
   model_load_failure_skipped envFirstOnly "YOLOv8n"
     "../yolov8n/runs/detect_train/weights/best.pt" "YOLOv8s"
     "../yolov8s/runs/detect_train/weights/best.pt" (by decide) (by decide)
     (by decide) (by decide)⟩

/-- C7.  Both training scripts write the generated label-map file at
the fixed path `test_data.yaml` next to the script, mapping `nc` to `7`
and `names` to exactly the 7 class labels in order. -/
theorem training_scripts_label_map (scriptDir : String) :
    trainAndTest_testYamlPath scriptDir = scriptDir ++ "/test_data.yaml" ∧
    (trainAndTest_testYaml scriptDir).nc = 7 ∧
    (trainAndTest_testYaml scriptDir).names =
      ["fish", "jellyfish", "penguin", "puffin", "shark", "starfish", "stingray"] ∧
    trainTestS_testYamlPath scriptDir = scriptDir ++ "/test_data.yaml" ∧
    (trainTestS_testYaml scriptDir).nc = 7 ∧
    (trainTestS_testYaml scriptDir).names =
      ["fish", "jellyfish", "penguin", "puffin", "shark", "starfish", "stingray"] :=
  ⟨rfl, rfl, rfl, rfl, rfl, rfl⟩

/-- C9.  `create_detection_summary` is total on every detection list:
the empty list yields the fixed no-objects message before any average
is computed, and on every non-empty list the divisor of the
average-confidence division — the list length — is nonzero. -/
theorem detection_summary_total (modelName : String) (inferenceTime : ℚ)
    (data : List DetectionRecord) (hne : data ≠ []) :
    createDetectionSummary [] modelName inferenceTime = noObjectsMsg ∧
    summaryDivisor data ≠ 0 := by
  constructor
  · simp [createDetectionSummary]
  · simp only [summaryDivisor, ne_eq, Nat.cast_eq_zero, List.length_eq_zero]
    exact hne

/-- Witness for C9 at a concrete non-empty detection list. -/
theorem detection_summary_total_witness :
    (([(default : DetectionRecord)] : List DetectionRecord) ≠ []) ∧
    (createDetectionSummary [] "YOLOv8n" 1 = noObjectsMsg ∧
     summaryDivisor [(default : DetectionRecord)] ≠ 0) :=
  ⟨by simp, detection_summary_total "YOLOv8n" 1 [default] (by simp)⟩

lemma historyLines_length (h : List HistoryEntry) :
    (historyLines h).length = min 10 h.length := by
  simp only [historyLines, List.length_map, List.enum_length,
    List.length_reverse, List.length_drop]
  omega

lemma historyLines_getD (h : List HistoryEntry) (k : Nat)
    (hk : k < (historyLines h).length) :
    (historyLines h).getD k "" =
      formatHistLine k (h.getD (h.length - 1 - k) default) := by
  have hk10 : k < min 10 h.length := historyLines_length h ▸ hk
  rw [List.getD_eq_getElem _ _ hk]
  simp only [historyLines] at hk ⊢
  rw [List.getElem_map, List.getElem_enum, List.getElem_reverse,
    List.getElem_drop]
  have hb : h.length - 1 - k < h.length := by omega
  rw [List.getD_eq_getElem _ _ hb]
  exact congrArg (formatHistLine k) (getElem_congr (by
    simp only [List.length_reverse, List.length_drop] at *
    omega))

/-- C10.  `get_detection_history` returns the fixed message on an empty
history, and otherwise formats at most the 10 most recent entries in
reverse chronological order: the `k`-th printed line (numbered `k+1`)
is the entry at distance `k` from the end of the buffer, and there are
`min 10 (length)` lines. -/
theorem detection_history_format :
    getDetectionHistory [] = "No detection history available." ∧
    ∀ h : List HistoryEntry, h ≠ [] →
      getDetectionHistory h =
        "## 📈 Detection History\n\n" ++ String.join (historyLines h) ∧
      (historyLines h).length = min 10 h.length ∧
      ∀ k, k < (historyLines h).length →
        (historyLines h).getD k "" =
          formatHistLine k (h.getD (h.length - 1 - k) default) := by
  refine ⟨by simp [getDetectionHistory], fun h hne => ⟨?_, historyLines_length h, ?_⟩⟩
  · simp [getDetectionHistory, hne]
  · exact fun k hk => historyLines_getD h k hk

/-- Witness for C10 at a concrete two-entry history. -/
theorem detection_history_format_witness :
    (([⟨"t1", "YOLOv8n", 0, 1, []⟩, ⟨"t2", "YOLOv8s", 0, 1, []⟩] :
        List HistoryEntry) ≠ []) ∧
    (0 < (historyLines [⟨"t1", "YOLOv8n", 0, 1, []⟩, ⟨"t2", "YOLOv8s", 0, 1, []⟩]).length) ∧
    ((historyLines [⟨"t1", "YOLOv8n", 0, 1, []⟩, ⟨"t2", "YOLOv8s", 0, 1, []⟩]).getD 0 "" =
      formatHistLine 0
        (([⟨"t1", "YOLOv8n", 0, 1, []⟩, ⟨"t2", "YOLOv8s", 0, 1, []⟩] :
            List HistoryEntry).getD
          (([⟨"t1", "YOLOv8n", 0, 1, []⟩, ⟨"t2", "YOLOv8s", 0, 1, []⟩] :
              List HistoryEntry).length - 1 - 0) default)) :=
  ⟨by simp, by rw [historyLines_length]; simp,
   ((detection_history_format.2 _ (by simp)).2.2) 0
     (by rw [historyLines_length]; simp)⟩

lemma drawLoop_heap_preserved {Img : Type} [Inhabited Img] (ops : CvOps Img)
    (imgH imgW aref : Nat) (boxes : List RawBox) :
    ∀ (heap : List Img) (data : List DetectionRecord) (i : Nat), i ≠ aref →
      (drawLoop ops imgH imgW aref heap data boxes).1[i]? = heap[i]? := by
  induction boxes with
  | nil => intro heap data i _; rfl
  | cons box rest ih =>
    intro heap data i hi
    match hconf : box.conf, hcls : box.cls with
    | some confidence, some classId =>
      simp only [drawLoop, hconf, hcls]
      rw [ih _ _ _ hi, List.getElem?_set_ne (fun hh => hi hh.symm)]
    | none, _ =>
      simp only [drawLoop, hconf]
      exact ih _ _ _ hi
    | some _, none =>
      simp only [drawLoop, hconf, hcls]
      exact ih _ _ _ hi

lemma drawLoop_data_sound {Img : Type} [Inhabited Img] (ops : CvOps Img)
    (imgH imgW aref : Nat) (P : DetectionRecord → Prop)
    (hP : ∀ confidence classId x1 y1 x2 y2,
      P ⟨if classId < UNDERWATER_CLASSES.length then UNDERWATER_CLASSES.getD classId ""
          else "class_" ++ toString classId,
         confidence, (x1, y1, x2, y2),
         dictGetD CLASS_COLORS
           (if classId < UNDERWATER_CLASSES.length then UNDERWATER_CLASSES.getD classId ""
            else "class_" ++ toString classId) "#FFFFFF"⟩) :
    ∀ (boxes : List RawBox) (heap : List Img) (data : List DetectionRecord),
      (∀ r ∈ data, P r) →
      ∀ r ∈ (drawLoop ops imgH imgW aref heap data boxes).2, P r := by
  intro boxes
  induction boxes with
  | nil => intro heap data hdata r hr; exact hdata r hr
  | cons box rest ih =>
    intro heap data hdata r hr
    match hconf : box.conf, hcls : box.cls with
    | some confidence, some classId =>
      simp only [drawLoop, hconf, hcls] at hr
      refine ih _ _ ?_ r hr
      intro r' hr'
      rcases List.mem_append.1 hr' with hmem | hmem
      · exact hdata r' hmem
      · rw [List.mem_singleton.1 hmem]
        exact hP confidence classId _ _ _ _
    | none, _ =>
      simp only [drawLoop, hconf] at hr
      exact ih _ _ hdata r hr
    | some _, none =>
      simp only [drawLoop, hconf, hcls] at hr
      exact ih _ _ hdata r hr

/-- C6.  `create_visualization` draws only onto a freshly allocated
copy of the input image: every buffer the caller already held — in
particular the input image — is unchanged after the call; the returned
annotated image is the fresh buffer allocated after the `np.array`
copy; and each record's display color is the fixed per-class color
function of its class name. -/
theorem create_visualization_copy {Img : Type} [Inhabited Img]
    (ops : CvOps Img) (heap : List Img) (imgRef : Nat)
    (results : YoloResults) :
    (∀ i, i < heap.length →
      (createVisualization ops heap imgRef results).1[i]? = heap[i]?) ∧
    (createVisualization ops heap imgRef results).2.1 = heap.length + 1 ∧
    (∀ r ∈ (createVisualization ops heap imgRef results).2.2,
      r.color = dictGetD CLASS_COLORS r.className "#FFFFFF") := by
  have happend : ∀ i, i < heap.length →
      ((heap ++ [heap.getD imgRef default]) ++ [heap.getD imgRef default])[i]? = heap[i]? := by
    intro i hi
    rw [List.getElem?_append_left (by simpa using Nat.lt_succ_of_lt hi),
      List.getElem?_append_left hi]
  cases hb : results.boxes with
  | none =>
    refine ⟨?_, ?_, ?_⟩
    · intro i hi
      simp only [createVisualization, hb]
      exact happend i hi
    · simp [createVisualization, hb]
    · simp [createVisualization, hb]
  | some boxes =>
    refine ⟨?_, ?_, ?_⟩
    · intro i hi
      simp only [createVisualization, hb]
      rw [drawLoop_heap_preserved _ _ _ _ _ _ _ _ (by
        simp only [List.length_append, List.length_singleton]
        omega)]
      exact happend i hi
    · simp [createVisualization, hb]
    · simp only [createVisualization, hb]
      exact drawLoop_data_sound ops _ _ _
        (fun r => r.color = dictGetD CLASS_COLORS r.className "#FFFFFF")
        (fun confidence classId x1 y1 x2 y2 => rfl) boxes _ []
        (fun r hr => absurd hr (List.not_mem_nil r))

/-- Witness for C6 at a concrete input. -/
theorem create_visualization_copy_witness :
    (0 < ([()] : List Unit).length) ∧
    ((createVisualization unitOps [()] 0 ⟨none⟩).1[0]? = ([()] : List Unit)[0]?) :=
  ⟨by decide,
   (create_visualization_copy unitOps [()] 0 ⟨none⟩).1 0 (by decide)⟩

lemma drawLoop_data_bounded {Img : Type} [Inhabited Img] (ops : CvOps Img)
    (imgH imgW aref : Nat) (P : DetectionRecord → Prop)
    (hP : ∀ (confidence : ℚ) (classId : Nat) (x1 y1 x2 y2 : Int),
      classId < UNDERWATER_CLASSES.length → 0 ≤ confidence → confidence ≤ 1 →
      P ⟨UNDERWATER_CLASSES.getD classId "", confidence, (x1, y1, x2, y2),
         dictGetD CLASS_COLORS (UNDERWATER_CLASSES.getD classId "") "#FFFFFF"⟩) :
    ∀ (boxes : List RawBox),
      (∀ b ∈ boxes, (∀ c, b.cls = some c → c < UNDERWATER_CLASSES.length) ∧
        (∀ q, b.conf = some q → 0 ≤ q ∧ q ≤ 1)) →
      ∀ (heap : List Img) (data : List DetectionRecord),
        (∀ r ∈ data, P r) →
        ∀ r ∈ (drawLoop ops imgH imgW aref heap data boxes).2, P r := by
  intro boxes
  induction boxes with
  | nil => intro _ heap data hdata r hr; exact hdata r hr
  | cons box rest ih =>
    intro hboxes heap data hdata r hr
    have hbox := hboxes box (List.mem_cons_self box rest)
    have hrest : ∀ b ∈ rest, (∀ c, b.cls = some c → c < UNDERWATER_CLASSES.length) ∧
        (∀ q, b.conf = some q → 0 ≤ q ∧ q ≤ 1) :=
      fun b hb => hboxes b (List.mem_cons_of_mem box hb)
    match hconf : box.conf, hcls : box.cls with
    | some confidence, some classId =>
      simp only [drawLoop, hconf, hcls] at hr
      have hlt : classId < UNDERWATER_CLASSES.length := hbox.1 classId hcls
      have hq := hbox.2 confidence hconf
      refine ih hrest _ _ ?_ r hr
      intro r' hr'
      rcases List.mem_append.1 hr' with hmem | hmem
      · exact hdata r' hmem
      · rw [List.mem_singleton.1 hmem]
        simp only [if_pos hlt]
        exact hP confidence classId _ _ _ _ hlt hq.1 hq.2
    | none, _ =>
      simp only [drawLoop, hconf] at hr
      exact ih hrest _ _ hdata r hr
    | some _, none =>
      simp only [drawLoop, hconf, hcls] at hr
      exact ih hrest _ _ hdata r hr

/-- C3, counterexample to the claim as stated: a detection whose raw
class id is `7` (possible whenever the fallback COCO-pretrained models
are in use, whose class ids reach 79) produces the record class name
`"class_7"`, which is not one of the 7 fixed labels, and a raw
confidence is copied into the record unclamped, here `2 > 1`. -/
theorem create_visualization_records_counterexample :
    ((createVisualization unitOps [()] 0
        ⟨some [⟨some 2, some 7, (0, 0, 0, 0)⟩]⟩).2.2.map
          (fun r => (r.className, r.confidence)) = [("class_7", 2)]) ∧
    "class_7" ∉ UNDERWATER_CLASSES ∧ ¬ ((2 : ℚ) ≤ 1) := by
  refine ⟨?_, by decide, by decide⟩
  rfl

/-- C3, amended.  Provided every raw box carries a class id below 7 and
a confidence within `[0, 1]` — what the custom 7-class models produce —
every detection record of `create_visualization` has a class name among
the 7 fixed labels, a confidence in the closed interval `[0, 1]`, a
4-integer bounding box (by construction of the record type), and
carries the fixed display color of its class from `CLASS_COLORS`. -/
theorem create_visualization_records_wellformed {Img : Type} [Inhabited Img]
    (ops : CvOps Img) (heap : List Img) (imgRef : Nat) (results : YoloResults)
    (hboxes : ∀ bs, results.boxes = some bs → ∀ b ∈ bs,
      (∀ c, b.cls = some c → c < UNDERWATER_CLASSES.length) ∧
      (∀ q, b.conf = some q → 0 ≤ q ∧ q ≤ 1)) :
    ∀ r ∈ (createVisualization ops heap imgRef results).2.2,
      r.className ∈ UNDERWATER_CLASSES ∧
      0 ≤ r.confidence ∧ r.confidence ≤ 1 ∧
      (r.className, r.color) ∈ CLASS_COLORS := by
  cases hb : results.boxes with
  | none => simp [createVisualization, hb]
  | some boxes =>
    simp only [createVisualization, hb]
    refine drawLoop_data_bounded ops _ _ _ _ ?_ boxes (hboxes boxes hb) _ []
      (fun r hr => absurd hr (List.not_mem_nil r))
    intro confidence classId x1 y1 x2 y2 hlt h0 h1
    have h7 : classId < 7 := by simpa [UNDERWATER_CLASSES] using hlt
    refine ⟨?_, h0, h1, ?_⟩
    · show UNDERWATER_CLASSES.getD classId "" ∈ UNDERWATER_CLASSES
      interval_cases classId <;> decide
    · show (UNDERWATER_CLASSES.getD classId "",
        dictGetD CLASS_COLORS (UNDERWATER_CLASSES.getD classId "") "#FFFFFF") ∈ CLASS_COLORS
      interval_cases classId <;> decide

/-- Witness for the amended C3 at a concrete input. -/
theorem create_visualization_records_wellformed_witness :
    (∀ bs, (⟨some [⟨some 1, some 0, (0, 0, 0, 0)⟩]⟩ : YoloResults).boxes = some bs →
      ∀ b ∈ bs, (∀ c, b.cls = some c → c < UNDERWATER_CLASSES.length) ∧
        (∀ q, b.conf = some q → 0 ≤ q ∧ q ≤ 1)) ∧
    (∀ r ∈ (createVisualization unitOps [()] 0
        ⟨some [⟨some 1, some 0, (0, 0, 0, 0)⟩]⟩).2.2,
      r.className ∈ UNDERWATER_CLASSES ∧
      0 ≤ r.confidence ∧ r.confidence ≤ 1 ∧
      (r.className, r.color) ∈ CLASS_COLORS) := by
  have hb : ∀ bs, (⟨some [⟨some 1, some 0, (0, 0, 0, 0)⟩]⟩ : YoloResults).boxes = some bs →
      ∀ b ∈ bs, (∀ c, b.cls = some c → c < UNDERWATER_CLASSES.length) ∧
        (∀ q, b.conf = some q → 0 ≤ q ∧ q ≤ 1) := by
    intro bs hbs b hmem
    simp only [Option.some.injEq] at hbs
    subst hbs
    simp only [List.mem_singleton] at hmem
    subst hmem
    refine ⟨fun c hc => ?_, fun q hq => ?_⟩
    · simp only [Option.some.injEq] at hc
      subst hc
      decide
    · simp only [Option.some.injEq] at hq
      subst hq
      constructor <;> norm_num
  exact ⟨hb, create_visualization_records_wellformed unitOps [()] 0 _ hb⟩
